import Mathlib

/-!
# Verification of the calculator history engine

Shallow embedding of the history core of the `calculator-midterm` repository:

* `Calculation` — `app/calculation.py`, class `Calculation`;
* `HistoryCaretaker` / snapshots — `app/calculator_memento.py`
  (`CalculatorMemento` holds a copy of the entry list; with value semantics a
  snapshot is just a `List Calculation`);
* `CalculationHistory` — `app/history.py`, class `CalculationHistory`;
* `Calculator` observer fan-out — `app/calculator.py`.

Modelling conventions:

* Python floats are modelled by `Int`: `repr`/`float()` round-trip exactly for
  Python floats, so the numeric domain only needs an injective print/parse
  pair, which the tagged CSV cell below carries directly.
* `datetime` values are modelled by `Nat` (seconds); `isoformat` produces a
  timestamp-typed cell and `fromisoformat` accepts exactly those cells.
* A CSV cell is tagged by its parse class (`Cell.num` for text `float()`
  accepts, `Cell.time` for text `fromisoformat` accepts, `Cell.str` for any
  other text); the classes are disjoint in Python, so the tagging is faithful.
* Exceptions are `Except String` / `Option`; a Python method that mutates
  `self` becomes a function `State → State` (or `State → α × State`).
-/

namespace CalcMidterm

/-- Source `Calculation.__init__` fields (`app/calculation.py`): operation name, two
operands, result, and the creation timestamp (`datetime.now()` is passed in
explicitly as a `Nat` by callers). -/
structure Calculation where
  operation : String
  operand1 : Int
  operand2 : Int
  result : Int
  timestamp : Nat
deriving DecidableEq, Repr

/-- A CSV cell, tagged by what Python can parse it as: `num` is a cell
`float()` accepts, `time` is a cell `datetime.fromisoformat` accepts, `str`
is any other text. -/
inductive Cell where
  | num (v : Int)
  | time (t : Nat)
  | str (s : String)
deriving DecidableEq, Repr

/-- Source `float(cell)`: succeeds exactly on numeric text, raises otherwise. -/
def cellToFloat? : Cell → Option Int
  | .num v => some v
  | _ => none

/-- Source `datetime.fromisoformat(cell)`: succeeds exactly on ISO-8601 timestamp
text, raises otherwise. -/
def cellToTimestamp? : Cell → Option Nat
  | .time t => some t
  | _ => none

/-- Reading a cell as plain text (the identity in Python; here the tagged
value is printed back). -/
def cellToStr : Cell → String
  | .str s => s
  | .num v => toString v
  | .time t => toString t

/-- Source `Calculation.to_dict` (`app/calculation.py` lines 36-44): a Python dict is
insertion-ordered, so it is an association list.  Note the fifth key is
`timestamp` and its value is `self.timestamp.isoformat()`. -/
def Calculation.to_dict (c : Calculation) : List (String × Cell) :=
  [("operation", .str c.operation),
   ("operand1", .num c.operand1),
   ("operand2", .num c.operand2),
   ("result", .num c.result),
   ("timestamp", .time c.timestamp)]

/-- Source `Calculation.from_dict` (`app/calculation.py` lines 46-57): requires the
`operation`, `operand1`, `operand2`, `result` keys (`KeyError`/`ValueError`
on a missing key or a cell `float()` rejects); the constructor stamps
`datetime.now()` (`now`), then the timestamp is overwritten from the dict iff
the `timestamp` key is present — `fromisoformat` raising on an unparsable
cell fails the whole call. -/
def Calculation.from_dict (now : Nat) (data : List (String × Cell)) :
    Option Calculation := do
  let opCell ← data.lookup "operation"
  let o1 ← cellToFloat? (← data.lookup "operand1")
  let o2 ← cellToFloat? (← data.lookup "operand2")
  let r ← cellToFloat? (← data.lookup "result")
  let base : Calculation :=
    { operation := cellToStr opCell, operand1 := o1, operand2 := o2,
      result := r, timestamp := now }
  match data.lookup "timestamp" with
  | none => some base
  | some tc => do
      let t ← cellToTimestamp? tc
      some { base with timestamp := t }

/-- Source `HistoryCaretaker` (`app/calculator_memento.py` lines 24-87): two stacks
of snapshots.  A `CalculatorMemento` stores a copy of the history list and
returns a copy, so with value semantics a snapshot is a `List Calculation`.
Python pushes and pops at the end of the list; here the head of the list is
the top of the stack. -/
structure HistoryCaretaker where
  undo_stack : List (List Calculation)
  redo_stack : List (List Calculation)
deriving DecidableEq, Repr

namespace HistoryCaretaker

/-- Source `HistoryCaretaker.__init__`: both stacks empty. -/
def init : HistoryCaretaker := ⟨[], []⟩

/-- Source `save_state` (lines 32-40): push the memento on `undo_stack` and clear
`redo_stack` unconditionally. -/
def save_state (c : HistoryCaretaker) (m : List Calculation) : HistoryCaretaker :=
  { undo_stack := m :: c.undo_stack, redo_stack := [] }

/-- Source `undo` (lines 42-57): with fewer than two stacked states return `None`
and leave the stacks alone; otherwise move the top of `undo_stack` to
`redo_stack` and return the new top of `undo_stack`. -/
def undo (c : HistoryCaretaker) : Option (List Calculation) × HistoryCaretaker :=
  if c.undo_stack.length < 2 then
    (none, c)
  else
    match c.undo_stack with
    | [] => (none, c)
    | current :: rest =>
        (rest.head?,
         { undo_stack := rest, redo_stack := current :: c.redo_stack })

/-- Source `redo` (lines 59-73): with an empty `redo_stack` return `None`; otherwise
move its top back to `undo_stack` and return it. -/
def redo (c : HistoryCaretaker) : Option (List Calculation) × HistoryCaretaker :=
  match c.redo_stack with
  | [] => (none, c)
  | next :: rest =>
      (some next, { undo_stack := next :: c.undo_stack, redo_stack := rest })

/-- Source `can_undo` (lines 75-77): `len(undo_stack) > 1`. -/
def can_undo (c : HistoryCaretaker) : Bool :=
  c.undo_stack.length > 1

/-- Source `can_redo` (lines 79-81): `len(redo_stack) > 0`. -/
def can_redo (c : HistoryCaretaker) : Bool :=
  c.redo_stack.length > 0

/-- Source `clear` (lines 83-86): empty both stacks. -/
def clear (_c : HistoryCaretaker) : HistoryCaretaker := ⟨[], []⟩

end HistoryCaretaker

/-- Source `CalculationHistory` (`app/history.py`): the entry list (oldest first),
the capacity, and the caretaker. -/
structure CalculationHistory where
  history : List Calculation
  max_size : Nat
  caretaker : HistoryCaretaker
deriving DecidableEq, Repr

namespace CalculationHistory

/-- Source `CalculationHistory.__init__` (lines 14-26): empty history, a fresh
caretaker, then one checkpoint of the initial empty state. -/
def init (max_size : Nat) : CalculationHistory :=
  { history := [], max_size := max_size,
    caretaker := HistoryCaretaker.init.save_state [] }

/-- Source `add_calculation` (lines 28-42): append, then if the length exceeds
`max_size` pop the oldest entry (`pop(0)` = `List.tail` of the appended
list), then checkpoint the post-eviction state. -/
def add_calculation (h : CalculationHistory) (c : Calculation) :
    CalculationHistory :=
  let hist := h.history ++ [c]
  let hist := if hist.length > h.max_size then hist.tail else hist
  { h with history := hist, caretaker := h.caretaker.save_state hist }

/-- Source `clear_history` (lines 48-53): empty the entries, reset the caretaker,
then checkpoint the empty state. -/
def clear_history (h : CalculationHistory) : CalculationHistory :=
  { h with
    history := [],
    caretaker := (h.caretaker.clear).save_state [] }

/-- Source `can_undo` (lines 93-95). -/
def can_undo (h : CalculationHistory) : Bool := h.caretaker.can_undo

/-- Source `can_redo` (lines 97-99). -/
def can_redo (h : CalculationHistory) : Bool := h.caretaker.can_redo

/-- Source `undo` (lines 59-74): refuse when `can_undo` is false; otherwise take the
previous memento from the caretaker and install its state. -/
def undo (h : CalculationHistory) : Bool × CalculationHistory :=
  if ¬ h.can_undo then
    (false, h)
  else
    match h.caretaker.undo with
    | (none, c') => (false, { h with caretaker := c' })
    | (some s, c') => (true, { h with history := s, caretaker := c' })

/-- Source `redo` (lines 76-91): refuse when `can_redo` is false; otherwise take the
next memento from the caretaker and install its state. -/
def redo (h : CalculationHistory) : Bool × CalculationHistory :=
  if ¬ h.can_redo then
    (false, h)
  else
    match h.caretaker.redo with
    | (none, c') => (false, { h with caretaker := c' })
    | (some s, c') => (true, { h with history := s, caretaker := c' })

end CalculationHistory

/-- The on-disk CSV: a header row followed by data rows. -/
structure Csv where
  header : List String
  rows : List (List Cell)
deriving DecidableEq, Repr

namespace CalculationHistory

/-- Source `save_to_csv` (`app/history.py` lines 101-122): raise `HistoryError` on an
empty history; otherwise build the list of dicts, and `pd.DataFrame(...).
to_csv` writes the keys of the (uniform) dicts as the header and each dict's
values, in key order, as one row.  `self` is never mutated. -/
def save_to_csv (h : CalculationHistory) :
    CalculationHistory × Except String Csv :=
  if h.history.isEmpty then
    (h, .error "No history to save")
  else
    let data := h.history.map Calculation.to_dict
    (h, .ok { header := (data.headD []).map Prod.fst,
              rows := data.map (List.map Prod.snd) })

/-- The row loop of `load_from_csv` (lines 142-145): `df.iterrows()` turns
each row into a dict keyed by the header; each is decoded with
`Calculation.from_dict` and appended.  An exception stops the loop, so the
result is the decoded prefix plus a flag recording whether a row failed. -/
def loadRows (now : Nat) (header : List String) :
    List (List Cell) → List Calculation × Bool
  | [] => ([], false)
  | r :: rs =>
    match Calculation.from_dict now (header.zip r) with
    | none => ([], true)
    | some c =>
        let (cs, e) := loadRows now header rs
        (c :: cs, e)

/-- Source `load_from_csv` (lines 124-152): a missing file (`file = none`) raises
before anything is touched; otherwise `self._history.clear()` runs, the rows
are decoded and appended one by one, and only on full success are the
undo/redo stacks cleared and the loaded state checkpointed.  A row failure
is re-raised as `HistoryError` with the history left at the decoded prefix
and the caretaker untouched. -/
def load_from_csv (h : CalculationHistory) (now : Nat) (file : Option Csv) :
    CalculationHistory × Except String Unit :=
  match file with
  | none => (h, .error "History file not found")
  | some csv =>
      let (parsed, failed) := loadRows now csv.header csv.rows
      if failed then
        ({ h with history := parsed }, .error "Failed to load history")
      else
        ({ h with
           history := parsed,
           caretaker := (h.caretaker.clear).save_state parsed }, .ok ())

end CalculationHistory

/-- An observer's `update` method, summarised by its outcome on a given
calculation: `some e` models `update` raising exception `e`, `none` models a
normal return (`app/calculator.py`, `CalculatorObserver.update`). -/
def Observer : Type := Calculation → Option String

/-- Source `AutoSaveObserver.update` (`app/calculator.py` lines 54-60): calls
`history.save_to_csv` and catches every exception, printing a warning
instead of re-raising — so the update itself never raises. -/
def AutoSaveObserver.update (h : CalculationHistory) (_c : Calculation) :
    Option String :=
  match (h.save_to_csv).2 with
  | .error _ => none
  | .ok _ => none

/-- Source `Calculator` state, restricted to what the fan-out touches: the history
store and the registered observers in registration order. -/
structure Calculator where
  history : CalculationHistory
  observers : List Observer

/-- Source `Calculator._notify_observers` (lines 106-109): call `update` on each
observer in order, with no exception handling — a raise stops the loop and
propagates.  Returns how many observers ran and the propagated exception,
if any. -/
def notifyObservers (c : Calculation) : List Observer → Nat × Option String
  | [] => (0, none)
  | o :: os =>
    match o c with
    | some e => (1, some e)
    | none =>
        let (n, r) := notifyObservers c os
        (n + 1, r)

/-- Source `Calculator.calculate` (lines 111-149) from the point where the operation
result is in hand (`execResult`; the operation registry is an external
collaborator that supplies the already-computed, rounded result, raising
`OperationError` on failure).  The record is built with `datetime.now()`
(`now`), added to history, and the observers are notified; any exception
escaping the fan-out is wrapped as `OperationError` and the result is not
returned. -/
def Calculator.calculate (cal : Calculator) (operation : String)
    (operand1 operand2 : Int) (execResult : Except String Int) (now : Nat) :
    Calculator × Except String Int :=
  match execResult with
  | .error e => (cal, .error e)
  | .ok result =>
      let c : Calculation :=
        { operation := operation, operand1 := operand1, operand2 := operand2,
          result := result, timestamp := now }
      let hist := cal.history.add_calculation c
      let (_, err) := notifyObservers c cal.observers
      match err with
      | some e =>
          ({ cal with history := hist },
           .error ("Calculation failed: " ++ e))
      | none => ({ cal with history := hist }, .ok result)

/-- Folding `add_calculation` over a list: the store reached from `h` by a
sequence of appends. -/
def appendAll (h : CalculationHistory) (l : List Calculation) :
    CalculationHistory :=
  l.foldl CalculationHistory.add_calculation h

/-- The capacity invariant claimed by the spec, extended to the snapshots the
caretaker holds (undo/redo install those snapshots as the live entries). -/
def Bounded (h : CalculationHistory) : Prop :=
  h.history.length ≤ h.max_size ∧
  (∀ s ∈ h.caretaker.undo_stack, s.length ≤ h.max_size) ∧
  (∀ s ∈ h.caretaker.redo_stack, s.length ≤ h.max_size)

/-- A well-formed CSV data row carrying only the four required columns
(operation, operand1, operand2, result), with no timestamp column. -/
def row4 : String × Int × Int × Int → List Cell
  | (op, a, b, r) => [.str op, .num a, .num b, .num r]

/-- Sample record used by concrete counterexamples and witnesses. -/
def c0 : Calculation := ⟨"add", 1, 2, 3, 0⟩

/-- Second sample record. -/
def c1 : Calculation := ⟨"subtract", 5, 3, 2, 1⟩

/-- A well-formed five-column CSV data row. -/
def goodRow (op : String) (a b r : Int) (t : Nat) : List Cell :=
  [.str op, .num a, .num b, .num r, .time t]

/-- A CSV file with two decodable rows. -/
def file2 : Csv :=
  { header := ["operation", "operand1", "operand2", "result", "timestamp"],
    rows := [goodRow "add" 1 2 3 0, goodRow "subtract" 5 3 2 1] }

/-- A CSV file whose second row has a non-numeric `operand1` cell, so its
decoding raises after the first row has already been appended. -/
def badFile : Csv :=
  { header := ["operation", "operand1", "operand2", "result", "timestamp"],
    rows := [goodRow "add" 1 2 3 0,
             [.str "mult", .str "x", .num 3, .num 6, .time 2]] }

/-- A CSV file whose single row has parsable operation and numeric columns
but a timestamp cell `fromisoformat` rejects. -/
def badTs : Csv :=
  { header := ["operation", "operand1", "operand2", "result", "timestamp"],
    rows := [[.str "add", .num 1, .num 2, .num 3, .str "garbage"]] }

/-- An observer whose `update` raises. -/
def obs1 : Observer := fun _ => some "boom"

/-- An observer whose `update` returns normally. -/
def obs2 : Observer := fun _ => none

/-- A calculator with a raising observer registered before a healthy one. -/
def cal0 : Calculator := ⟨CalculationHistory.init 100, [obs1, obs2]⟩

/-! ## Helper lemmas -/

/-- Decoding an encoded record restores it exactly. -/
theorem from_dict_to_dict (now : Nat) (c : Calculation) :
    Calculation.from_dict now (Calculation.to_dict c) = some c := rfl

/-- The row loop decodes every encoded row back to its record, with no error. -/
theorem loadRows_map_to_dict (now : Nat) (l : List Calculation) :
    CalculationHistory.loadRows now
      ["operation", "operand1", "operand2", "result", "timestamp"]
      (l.map fun c => (Calculation.to_dict c).map Prod.snd) = (l, false) := by
  induction l with
  | nil => rfl
  | cons c t ih =>
      simp only [List.map_cons, CalculationHistory.loadRows]
      rw [show (["operation", "operand1", "operand2", "result", "timestamp"].zip
            ((Calculation.to_dict c).map Prod.snd)) = Calculation.to_dict c from rfl,
          from_dict_to_dict, ih]

/-- Decoding a four-column row (no timestamp column) falls back to `now`. -/
theorem from_dict_row4 (now : Nat) (p : String × Int × Int × Int) :
    Calculation.from_dict now
      (["operation", "operand1", "operand2", "result"].zip (row4 p)) =
      some ⟨p.1, p.2.1, p.2.2.1, p.2.2.2, now⟩ := by
  obtain ⟨op, a, b, r⟩ := p
  rfl

/-- The row loop decodes a file of four-column rows fully, stamping `now`. -/
theorem loadRows_map_row4 (now : Nat) (q : List (String × Int × Int × Int)) :
    CalculationHistory.loadRows now
      ["operation", "operand1", "operand2", "result"] (q.map row4) =
      (q.map fun p => ⟨p.1, p.2.1, p.2.2.1, p.2.2.2, now⟩, false) := by
  induction q with
  | nil => rfl
  | cons p t ih =>
      simp only [List.map_cons, CalculationHistory.loadRows, from_dict_row4, ih]

/-- Entries after a sequence of appends: the appended suffix, truncated from
the front to the capacity (given the starting state is within capacity). -/
theorem appendAll_history (l : List Calculation) :
    ∀ h : CalculationHistory, h.history.length ≤ h.max_size →
      (appendAll h l).max_size = h.max_size ∧
      (appendAll h l).history =
        (h.history ++ l).drop (h.history.length + l.length - h.max_size) := by
  induction l with
  | nil =>
      intro h hle
      refine ⟨rfl, ?_⟩
      simp only [appendAll, List.foldl_nil, List.append_nil, List.length_nil,
        Nat.add_zero]
      rw [Nat.sub_eq_zero_of_le hle, List.drop_zero]
  | cons a t ih =>
      intro h hle
      have hstep : appendAll h (a :: t) =
          appendAll (h.add_calculation a) t := rfl
      have hadd : (h.add_calculation a).history =
          if (h.history ++ [a]).length > h.max_size then
            (h.history ++ [a]).tail
          else h.history ++ [a] := rfl
      have hms : (h.add_calculation a).max_size = h.max_size := rfl
      have hlen1 : (h.history ++ [a]).length = h.history.length + 1 := by
        simp
      by_cases hn : (h.history ++ [a]).length > h.max_size
      · -- eviction: history length was exactly max_size
        have hEq : h.history.length = h.max_size := by omega
        have hhist : (h.add_calculation a).history = (h.history ++ [a]).tail := by
          rw [hadd, if_pos hn]
        have hlen : (h.add_calculation a).history.length ≤
            (h.add_calculation a).max_size := by
          rw [hhist, hms, List.length_tail]
          omega
        obtain ⟨ihms, ihh⟩ := ih (h.add_calculation a) hlen
        refine ⟨by rw [hstep, ihms, hms], ?_⟩
        rw [hstep, ihh, hhist, hms]
        have h1 : (h.history ++ [a]).tail = (h.history ++ [a]).drop 1 :=
          (List.drop_one _).symm
        have h2 : ((h.history ++ [a]).drop 1) ++ t =
            ((h.history ++ [a]) ++ t).drop 1 :=
          (List.drop_append_of_le_length (by omega)).symm
        rw [h1, h2, List.drop_drop, List.append_assoc, List.singleton_append]
        congr 1
        simp only [List.length_drop, List.length_cons]
        omega
      · -- no eviction
        have hhist : (h.add_calculation a).history = h.history ++ [a] := by
          rw [hadd, if_neg hn]
        have hlen : (h.add_calculation a).history.length ≤
            (h.add_calculation a).max_size := by
          rw [hhist, hms]
          omega
        obtain ⟨ihms, ihh⟩ := ih (h.add_calculation a) hlen
        refine ⟨by rw [hstep, ihms, hms], ?_⟩
        rw [hstep, ihh, hhist, hms, List.append_assoc, List.singleton_append]
        congr 1
        simp only [List.length_cons]
        omega

/-- Behaviour of the store's `undo`: a no-op returning false with at most one
stacked state, otherwise the top snapshot moves to the redo stack and the one
below it becomes the live entries. -/
theorem undo_spec (h : CalculationHistory) :
    (h.caretaker.undo_stack.length ≤ 1 → h.undo = (false, h)) ∧
    (∀ x y rest, h.caretaker.undo_stack = x :: y :: rest →
      h.undo = (true, { h with
        history := y,
        caretaker := ⟨y :: rest, x :: h.caretaker.redo_stack⟩ })) := by
  constructor
  · intro hlen
    have hcu : h.can_undo = false := by
      simp [CalculationHistory.can_undo, HistoryCaretaker.can_undo]
      omega
    simp [CalculationHistory.undo, hcu]
  · intro x y rest hstack
    have hcu : h.can_undo = true := by
      simp [CalculationHistory.can_undo, HistoryCaretaker.can_undo, hstack]
    have hcun : h.caretaker.undo =
        (some y, ⟨y :: rest, x :: h.caretaker.redo_stack⟩) := by
      simp [HistoryCaretaker.undo, hstack]
    simp [CalculationHistory.undo, hcu, hcun]

/-- Behaviour of the store's `redo`: a no-op returning false with an empty
redo stack, otherwise the top redo snapshot moves back and becomes the live
entries. -/
theorem redo_spec (h : CalculationHistory) :
    (h.caretaker.redo_stack = [] → h.redo = (false, h)) ∧
    (∀ x rest, h.caretaker.redo_stack = x :: rest →
      h.redo = (true, { h with
        history := x,
        caretaker := ⟨x :: h.caretaker.undo_stack, rest⟩ })) := by
  constructor
  · intro hempty
    have hcr : h.can_redo = false := by
      simp [CalculationHistory.can_redo, HistoryCaretaker.can_redo, hempty]
    simp [CalculationHistory.redo, hcr]
  · intro x rest hstack
    have hcr : h.can_redo = true := by
      simp [CalculationHistory.can_redo, HistoryCaretaker.can_redo, hstack]
    have hcrn : h.caretaker.redo =
        (some x, ⟨x :: h.caretaker.undo_stack, rest⟩) := by
      simp [HistoryCaretaker.redo, hstack]
    simp [CalculationHistory.redo, hcr, hcrn]

/-- Appending preserves the capacity invariant (the new snapshot is the new,
already-truncated entry list). -/
theorem Bounded_add (h : CalculationHistory) (hb : Bounded h) (c : Calculation) :
    Bounded (h.add_calculation c) := by
  obtain ⟨h1, h2, _⟩ := hb
  have hadd : (h.add_calculation c).history =
      if (h.history ++ [c]).length > h.max_size then (h.history ++ [c]).tail
      else h.history ++ [c] := rfl
  have hms : (h.add_calculation c).max_size = h.max_size := rfl
  have hck : (h.add_calculation c).caretaker =
      ⟨(h.add_calculation c).history :: h.caretaker.undo_stack, []⟩ := rfl
  have hl1 : (h.history ++ [c]).length = h.history.length + 1 := by simp
  have hhl : (h.add_calculation c).history.length ≤ h.max_size := by
    rw [hadd]
    by_cases hn : (h.history ++ [c]).length > h.max_size
    · rw [if_pos hn, List.length_tail]
      omega
    · rw [if_neg hn]
      omega
  refine ⟨by rw [hms]; exact hhl, ?_, ?_⟩
  · rw [hck, hms]
    intro s hs
    rcases List.mem_cons.mp hs with hs | hs
    · subst hs; exact hhl
    · exact h2 s hs
  · rw [hck]
    intro s hs
    simp at hs

/-- Clearing preserves the capacity invariant. -/
theorem Bounded_clear (h : CalculationHistory) : Bounded h.clear_history := by
  refine ⟨?_, ?_, ?_⟩ <;>
    simp [Bounded, CalculationHistory.clear_history, HistoryCaretaker.clear,
      HistoryCaretaker.save_state]

/-- Undo preserves the capacity invariant: it only moves snapshots between
the stacks and installs one of them. -/
theorem Bounded_undo (h : CalculationHistory) (hb : Bounded h) :
    Bounded (h.undo).2 := by
  obtain ⟨h1, h2, h3⟩ := hb
  rcases hstack : h.caretaker.undo_stack with _ | ⟨x, rest⟩
  · rw [(undo_spec h).1 (by rw [hstack]; simp)]
    exact ⟨h1, h2, h3⟩
  · rcases rest with _ | ⟨y, rest'⟩
    · rw [(undo_spec h).1 (by rw [hstack]; simp)]
      exact ⟨h1, h2, h3⟩
    · rw [(undo_spec h).2 x y rest' hstack]
      refine ⟨?_, ?_, ?_⟩
      · exact h2 y (by rw [hstack]; simp)
      · intro s hs
        exact h2 s (by rw [hstack]; simp at hs ⊢; tauto)
      · intro s hs
        rcases List.mem_cons.mp hs with rfl | hs
        · exact h2 _ (by rw [hstack]; simp)
        · exact h3 s hs

/-- Redo preserves the capacity invariant. -/
theorem Bounded_redo (h : CalculationHistory) (hb : Bounded h) :
    Bounded (h.redo).2 := by
  obtain ⟨h1, h2, h3⟩ := hb
  rcases hstack : h.caretaker.redo_stack with _ | ⟨x, rest⟩
  · rw [(redo_spec h).1 hstack]
    exact ⟨h1, h2, h3⟩
  · rw [(redo_spec h).2 x rest hstack]
    refine ⟨?_, ?_, ?_⟩
    · exact h3 x (by rw [hstack]; simp)
    · intro s hs
      rcases List.mem_cons.mp hs with rfl | hs
      · exact h3 _ (by rw [hstack]; simp)
      · exact h2 s hs
    · intro s hs
      exact h3 s (by rw [hstack]; simp [hs])

/-- After at least one append the top of the undo stack is the live entry
list, with at least one state below it. -/
theorem appendAll_stack (l : List Calculation) :
    ∀ h : CalculationHistory, h.caretaker.undo_stack ≠ [] → l ≠ [] →
      ∃ s rest, (appendAll h l).caretaker.undo_stack =
        (appendAll h l).history :: s :: rest := by
  induction l with
  | nil => intro h _ hl; exact absurd rfl hl
  | cons a t ih =>
      intro h hne _
      by_cases ht : t = []
      · subst ht
        rcases hx : h.caretaker.undo_stack with _ | ⟨s, rest⟩
        · exact absurd hx hne
        · have e1 : (h.add_calculation a).caretaker.undo_stack =
              (h.add_calculation a).history :: h.caretaker.undo_stack := rfl
          exact ⟨s, rest, by rw [show appendAll h [a] = h.add_calculation a from rfl,
            e1, hx]⟩
      · have hne' : (h.add_calculation a).caretaker.undo_stack ≠ [] := by
          intro hx
          exact List.cons_ne_nil _ _ hx
        exact ih (h.add_calculation a) hne' ht

/-- The fan-out loop runs every observer when none raises. -/
theorem notify_all_ok (c : Calculation) :
    ∀ os : List Observer, (∀ f ∈ os, f c = none) →
      notifyObservers c os = (os.length, none) := by
  intro os
  induction os with
  | nil => intro _; rfl
  | cons o t ih =>
      intro hall
      have ho : o c = none := hall o (List.mem_cons_self o t)
      have ht := ih fun f hf => hall f (List.mem_cons_of_mem o hf)
      simp [notifyObservers, ho, ht]

/-- The fan-out loop stops at the first raising observer: observers after it
do not run, and the exception propagates. -/
theorem notify_prefix_raise (c : Calculation) (f : Observer) (e : String)
    (hfe : f c = some e) :
    ∀ pre : List Observer, ∀ post : List Observer, (∀ g ∈ pre, g c = none) →
      notifyObservers c (pre ++ f :: post) = (pre.length + 1, some e) := by
  intro pre
  induction pre with
  | nil =>
      intro post _
      simp [notifyObservers, hfe]
  | cons g t ih =>
      intro post hall
      have hg : g c = none := hall g (List.mem_cons_self g t)
      have ht := ih post fun x hx => hall x (List.mem_cons_of_mem g hx)
      simp [notifyObservers, hg, ht]

/-- Unfolding of `load_from_csv` on a present file, in terms of the decoded
prefix and the failure flag. -/
theorem load_some_spec (h : CalculationHistory) (now : Nat) (csv : Csv) :
    h.load_from_csv now (some csv) =
      if (CalculationHistory.loadRows now csv.header csv.rows).2 then
        ({ h with
            history := (CalculationHistory.loadRows now csv.header csv.rows).1 },
         .error "Failed to load history")
      else
        ({ h with
            history := (CalculationHistory.loadRows now csv.header csv.rows).1,
            caretaker := (h.caretaker.clear).save_state
              (CalculationHistory.loadRows now csv.header csv.rows).1 },
         .ok ()) := rfl

/-! ## Claim theorems -/

/-- C1, counterexample: a load from persistence does not enforce the capacity
bound — loading a two-row file into a store of capacity 1 succeeds and leaves
two entries, so the claimed invariant fails after this mutating operation. -/
theorem C1_counterexample :
    ((CalculationHistory.init 1).load_from_csv 0 (some file2)).2 = .ok () ∧
    ¬ (((CalculationHistory.init 1).load_from_csv 0 (some file2)).1.history.length ≤
       ((CalculationHistory.init 1).load_from_csv 0 (some file2)).1.max_size) :=
  ⟨rfl, by decide⟩

/-- C1, amended: for every capacity C ≥ 1, after appending any N records to a
fresh store the entries are exactly the last min(N, C) appended records in
original order (so one oldest record is evicted per over-capacity append) and
their number is at most C; moreover append, clear, undo and redo each
preserve the capacity invariant `Bounded` — only load can break it. -/
theorem C1_amended (C : Nat) (hC : 1 ≤ C) (l : List Calculation)
    (h : CalculationHistory) (hb : Bounded h) (c : Calculation) :
    (appendAll (CalculationHistory.init C) l).history = l.drop (l.length - C) ∧
    (appendAll (CalculationHistory.init C) l).history.length ≤ C ∧
    Bounded (h.add_calculation c) ∧
    Bounded h.clear_history ∧
    Bounded (h.undo).2 ∧
    Bounded (h.redo).2 := by
  have h0 : (CalculationHistory.init C).history.length ≤
      (CalculationHistory.init C).max_size := by
    simp [CalculationHistory.init]
  obtain ⟨hms, hh⟩ := appendAll_history l (CalculationHistory.init C) h0
  have hinit_hist : (CalculationHistory.init C).history = [] := rfl
  have hinit_ms : (CalculationHistory.init C).max_size = C := rfl
  refine ⟨?_, ?_, Bounded_add h hb c, Bounded_clear h, Bounded_undo h hb,
    Bounded_redo h hb⟩
  · rw [hh, hinit_hist, hinit_ms, List.nil_append, List.length_nil,
      Nat.zero_add]
  · rw [hh, hinit_hist, hinit_ms, List.nil_append, List.length_nil,
      Nat.zero_add, List.length_drop]
    omega

/-- C1, witness: instances of the amended statement at capacity 1 with two
appended records, and at a concrete bounded store. -/
theorem C1_witness :
    (appendAll (CalculationHistory.init 1) [c0, c1]).history =
      [c0, c1].drop ([c0, c1].length - 1) ∧
    (appendAll (CalculationHistory.init 1) [c0, c1]).history.length ≤ 1 ∧
    Bounded ((CalculationHistory.init 3).add_calculation c0) ∧
    Bounded (CalculationHistory.init 3).clear_history ∧
    Bounded ((CalculationHistory.init 3).undo).2 ∧
    Bounded ((CalculationHistory.init 3).redo).2 :=
  C1_amended 1 (by decide) [c0, c1] (CalculationHistory.init 3)
    ⟨by decide, by decide, by decide⟩ c0

/-- C2, counterexample: a load whose second row fails to decode raises, yet
the in-memory entries are not what they were before the load (the prior
entry is gone and the decoded first row is present). -/
theorem C2_counterexample :
    (((CalculationHistory.init 3).add_calculation c1).load_from_csv 0
        (some badFile)).2 = .error "Failed to load history" ∧
    (((CalculationHistory.init 3).add_calculation c1).load_from_csv 0
        (some badFile)).1.history ≠
      ((CalculationHistory.init 3).add_calculation c1).history :=
  ⟨rfl, by decide⟩

/-- C2, amended: on any load failure the undo/redo stacks and the capacity
are exactly as before; a missing file additionally leaves the whole store
unchanged; a successful load fully replaces the entries with the decoded
records.  A row-decode failure, however, leaves the entries at the decoded
prefix of the file, not at their prior value. -/
theorem C2_amended (h : CalculationHistory) (now : Nat) (file : Option Csv) :
    (∀ e, (h.load_from_csv now file).2 = .error e →
      (h.load_from_csv now file).1.caretaker = h.caretaker ∧
      (h.load_from_csv now file).1.max_size = h.max_size) ∧
    (file = none → (h.load_from_csv now file).1 = h) ∧
    (∀ csv, file = some csv → (h.load_from_csv now file).2 = .ok () →
      (h.load_from_csv now file).1.history =
        (CalculationHistory.loadRows now csv.header csv.rows).1) := by
  match file with
  | none =>
      exact ⟨fun e _ => ⟨rfl, rfl⟩, fun _ => rfl, fun csv hcsv => by cases hcsv⟩
  | some csv =>
      rw [load_some_spec]
      by_cases hfail : (CalculationHistory.loadRows now csv.header csv.rows).2 = true
      · rw [if_pos hfail]
        refine ⟨fun e _ => ⟨rfl, rfl⟩, fun hx => Option.noConfusion hx, ?_⟩
        intro csv' hcsv' hok
        exact Except.noConfusion hok
      · rw [if_neg hfail]
        refine ⟨fun e he => Except.noConfusion he,
          fun hx => Option.noConfusion hx, ?_⟩
        intro csv' hcsv' _
        cases hcsv'
        rfl

/-- C2, witness: the amended statement applied to a missing file, yielding
the unchanged-store conclusion at a concrete store. -/
theorem C2_witness :
    ((CalculationHistory.init 3).load_from_csv 0 none).1 =
      CalculationHistory.init 3 :=
  (C2_amended (CalculationHistory.init 3) 0 none).2.1 rfl

/-- C3, counterexample: the store reached by the empty sequence of appends
refuses both undo and redo (they return false, where the claim requires
true). -/
theorem C3_counterexample :
    ((CalculationHistory.init 100).undo).1 = false ∧
    (((CalculationHistory.init 100).undo).2.redo).1 = false := by
  decide

/-- C3, amended: for every store reached from a fresh store by at least one
append, undo() followed by redo() returns true both times and restores the
store — in particular the entries — exactly. -/
theorem C3_amended (C : Nat) (l : List Calculation) (hl : l ≠ []) :
    ((appendAll (CalculationHistory.init C) l).undo).1 = true ∧
    (((appendAll (CalculationHistory.init C) l).undo).2.redo).1 = true ∧
    (((appendAll (CalculationHistory.init C) l).undo).2.redo).2 =
      appendAll (CalculationHistory.init C) l := by
  have hne : (CalculationHistory.init C).caretaker.undo_stack ≠ [] := by
    simp [CalculationHistory.init, HistoryCaretaker.init,
      HistoryCaretaker.save_state]
  obtain ⟨s, rest, hstack⟩ :=
    appendAll_stack l (CalculationHistory.init C) hne hl
  set h := appendAll (CalculationHistory.init C) l with hdef
  have hu := (undo_spec h).2 h.history s rest hstack
  rw [hu]
  refine ⟨rfl, ?_, ?_⟩
  · rw [(redo_spec _).2 h.history h.caretaker.redo_stack rfl]
  · rw [(redo_spec _).2 h.history h.caretaker.redo_stack rfl]
    show ({ h with
      history := h.history,
      caretaker := ⟨h.history :: s :: rest, h.caretaker.redo_stack⟩ } :
        CalculationHistory) = h
    rw [← hstack]

/-- C3, witness: the amended statement at capacity 100 after one append. -/
theorem C3_witness :
    ((appendAll (CalculationHistory.init 100) [c0]).undo).1 = true ∧
    (((appendAll (CalculationHistory.init 100) [c0]).undo).2.redo).1 = true ∧
    (((appendAll (CalculationHistory.init 100) [c0]).undo).2.redo).2 =
      appendAll (CalculationHistory.init 100) [c0] :=
  C3_amended 100 [c0] (by decide)

/-- C4, counterexample: can_undo() is already true after exactly one append
(construction checkpoints the initial empty state, so one append makes two
stacked states), where the claim requires false. -/
theorem C4_counterexample :
    ((CalculationHistory.init 100).add_calculation c0).can_undo = true := by
  decide

/-- C4, amended: can_undo() is false immediately after construction and
immediately after clear(); it first becomes true after the first append. -/
theorem C4_amended (C : Nat) (h : CalculationHistory) (c : Calculation) :
    (CalculationHistory.init C).can_undo = false ∧
    h.clear_history.can_undo = false ∧
    ((CalculationHistory.init C).add_calculation c).can_undo = true :=
  ⟨rfl, rfl, rfl⟩

/-- C5: every checkpoint (`save_state`) unconditionally empties the redo
stack, so in append(); undo(); append() starting from any store, the final
can_redo() is false. -/
theorem C5_theorem (h : CalculationHistory) (a b : Calculation)
    (ck : HistoryCaretaker) (m : List Calculation) :
    (ck.save_state m).redo_stack = [] ∧
    ((((h.add_calculation a).undo).2).add_calculation b).can_redo = false :=
  ⟨rfl, rfl⟩

/-- C6: persistence round-trip — encoding any non-empty entry list succeeds
and decoding the encoded table yields exactly the original records (the
model's timestamps round-trip exactly, matching "modulo formatting
precision"). -/
theorem C6_theorem (h : CalculationHistory) (hne : h.history ≠ []) (now : Nat) :
    ∃ csv, (h.save_to_csv).2 = .ok csv ∧
      CalculationHistory.loadRows now csv.header csv.rows = (h.history, false) := by
  match hh : h.history with
  | [] => exact absurd hh hne
  | c :: rest =>
      refine ⟨⟨["operation", "operand1", "operand2", "result", "timestamp"],
        (c :: rest).map fun x => (Calculation.to_dict x).map Prod.snd⟩, ?_, ?_⟩
      · unfold CalculationHistory.save_to_csv
        rw [hh]
        simp [List.map_map, Function.comp, Calculation.to_dict]
      · exact loadRows_map_to_dict now (c :: rest)

/-- C6, witness: the round-trip at a store holding one concrete record. -/
theorem C6_witness :
    ∃ csv, (((CalculationHistory.init 5).add_calculation c0).save_to_csv).2 =
        .ok csv ∧
      CalculationHistory.loadRows 0 csv.header csv.rows =
        (((CalculationHistory.init 5).add_calculation c0).history, false) :=
  C6_theorem ((CalculationHistory.init 5).add_calculation c0) (by decide) 0

/-- C7, counterexample: the fifth encoded column is named `timestamp`, not
`created_at` as the claim states. -/
theorem C7_counterexample :
    ((((CalculationHistory.init 5).add_calculation c0).save_to_csv).2.map
      Csv.header) = .ok ["operation", "operand1", "operand2", "result",
        "timestamp"] ∧
    (["operation", "operand1", "operand2", "result", "timestamp"] :
        List String) ≠
      ["operation", "operand1", "operand2", "result", "created_at"] :=
  ⟨rfl, by decide⟩

/-- C7, amended: for every non-empty entries sequence, encode produces a
header row first and then one row per record whose columns are named and
ordered exactly operation, operand1, operand2, result, timestamp, with the
timestamp column an ISO-8601 string. -/
theorem C7_amended (h : CalculationHistory) (hne : h.history ≠ []) :
    ∃ csv, (h.save_to_csv).2 = .ok csv ∧
      csv.header = ["operation", "operand1", "operand2", "result",
        "timestamp"] ∧
      csv.rows = h.history.map fun c =>
        [Cell.str c.operation, Cell.num c.operand1, Cell.num c.operand2,
         Cell.num c.result, Cell.time c.timestamp] := by
  match hh : h.history with
  | [] => exact absurd hh hne
  | c :: rest =>
      refine ⟨⟨["operation", "operand1", "operand2", "result", "timestamp"],
        (c :: rest).map fun x => (Calculation.to_dict x).map Prod.snd⟩, ?_,
        rfl, ?_⟩
      · unfold CalculationHistory.save_to_csv
        rw [hh]
        simp [List.map_map, Function.comp, Calculation.to_dict]
      · rfl

/-- C7, witness: the amended statement at a store holding one record. -/
theorem C7_witness :
    ∃ csv, (((CalculationHistory.init 5).add_calculation c0).save_to_csv).2 =
        .ok csv ∧
      csv.header = ["operation", "operand1", "operand2", "result",
        "timestamp"] ∧
      csv.rows = ((CalculationHistory.init 5).add_calculation c0).history.map
        fun c => [Cell.str c.operation, Cell.num c.operand1,
          Cell.num c.operand2, Cell.num c.result, Cell.time c.timestamp] :=
  C7_amended ((CalculationHistory.init 5).add_calculation c0) (by decide)

/-- C8, counterexample: a row whose operation and numeric columns are
parsable but whose timestamp cell is unparsable makes the whole load fail,
where the claim requires a current-time fallback and success. -/
theorem C8_counterexample :
    ((CalculationHistory.init 5).load_from_csv 7 (some badTs)).2 =
      .error "Failed to load history" := rfl

/-- C8, amended: when the timestamp column is absent, every record decodes
with the current time as its timestamp and the load succeeds; but when a
timestamp value is present and unparsable, the row decoder raises (so the
load of the file fails). -/
theorem C8_amended (h : CalculationHistory) (now : Nat)
    (q : List (String × Int × Int × Int)) (d : List (String × Cell))
    (tc : Cell) (hts : d.lookup "timestamp" = some tc)
    (hbad : cellToTimestamp? tc = none) :
    (h.load_from_csv now
        (some ⟨["operation", "operand1", "operand2", "result"],
          q.map row4⟩)).2 = .ok () ∧
    (h.load_from_csv now
        (some ⟨["operation", "operand1", "operand2", "result"],
          q.map row4⟩)).1.history =
      (q.map fun p => ⟨p.1, p.2.1, p.2.2.1, p.2.2.2, now⟩) ∧
    Calculation.from_dict now d = none := by
  have hlr := loadRows_map_row4 now q
  refine ⟨?_, ?_, ?_⟩
  · rw [load_some_spec, hlr]
    rfl
  · rw [load_some_spec, hlr]
    rfl
  · cases ho : d.lookup "operation" with
    | none => simp [Calculation.from_dict, ho]
    | some opc =>
        cases h1 : d.lookup "operand1" with
        | none => simp [Calculation.from_dict, ho, h1]
        | some e1 =>
            cases hf1 : cellToFloat? e1 with
            | none => simp [Calculation.from_dict, ho, h1, hf1]
            | some v1 =>
                cases h2 : d.lookup "operand2" with
                | none => simp [Calculation.from_dict, ho, h1, hf1, h2]
                | some e2 =>
                    cases hf2 : cellToFloat? e2 with
                    | none => simp [Calculation.from_dict, ho, h1, hf1, h2, hf2]
                    | some v2 =>
                        cases h3 : d.lookup "result" with
                        | none =>
                            simp [Calculation.from_dict, ho, h1, hf1, h2, hf2,
                              h3]
                        | some e3 =>
                            cases hf3 : cellToFloat? e3 with
                            | none =>
                                simp [Calculation.from_dict, ho, h1, hf1, h2,
                                  hf2, h3, hf3]
                            | some v3 =>
                                simp [Calculation.from_dict, ho, h1, hf1, h2,
                                  hf2, h3, hf3, hts, hbad]

/-- C8, witness: the amended statement at a one-row four-column file and at a
dict carrying an unparsable timestamp cell. -/
theorem C8_witness :
    ((CalculationHistory.init 5).load_from_csv 7
        (some ⟨["operation", "operand1", "operand2", "result"],
          [("add", 1, 2, 3)].map row4⟩)).2 = .ok () ∧
    ((CalculationHistory.init 5).load_from_csv 7
        (some ⟨["operation", "operand1", "operand2", "result"],
          [("add", 1, 2, 3)].map row4⟩)).1.history =
      ([("add", 1, 2, 3)].map fun p =>
        ⟨p.1, p.2.1, p.2.2.1, p.2.2.2, 7⟩) ∧
    Calculation.from_dict 7 [("timestamp", Cell.str "garbage")] = none :=
  C8_amended (CalculationHistory.init 5) 7 [("add", 1, 2, 3)]
    [("timestamp", Cell.str "garbage")] (Cell.str "garbage") (by decide)
    (by decide)

/-- C9, counterexample: with a raising observer registered before a healthy
one, only the first observer runs (1 of 2) and the error propagates to the
caller of calculate instead of the result being returned. -/
theorem C9_counterexample :
    (notifyObservers c0 [obs1, obs2]).1 = 1 ∧
    ([obs1, obs2] : List Observer).length = 2 ∧
    (cal0.calculate "add" 1 2 (.ok 3) 0).2 =
      .error "Calculation failed: boom" := ⟨rfl, rfl, rfl⟩

/-- C9, amended: the fan-out has no error handling of its own — when every
registered observer returns normally all of them run and the result is
returned, but an observer that raises stops the fan-out (later observers do
not run) and the error propagates to the caller as an OperationError; only
the built-in auto-save observer catches its own failure internally, so its
update never raises. -/
theorem C9_amended (cal : Calculator) (op : String) (o1 o2 res : Int)
    (now : Nat) :
    ((∀ f ∈ cal.observers,
        f (⟨op, o1, o2, res, now⟩ : Calculation) = none) →
      (cal.calculate op o1 o2 (.ok res) now).2 = .ok res ∧
      (notifyObservers (⟨op, o1, o2, res, now⟩ : Calculation)
        cal.observers).1 = cal.observers.length) ∧
    (∀ pre f post e, cal.observers = pre ++ f :: post →
      (∀ g ∈ pre, g (⟨op, o1, o2, res, now⟩ : Calculation) = none) →
      f (⟨op, o1, o2, res, now⟩ : Calculation) = some e →
      (notifyObservers (⟨op, o1, o2, res, now⟩ : Calculation)
        cal.observers).1 = pre.length + 1 ∧
      (cal.calculate op o1 o2 (.ok res) now).2 =
        .error ("Calculation failed: " ++ e)) ∧
    (∀ hst c, AutoSaveObserver.update hst c = none) := by
  refine ⟨?_, ?_, ?_⟩
  · intro hall
    have hn := notify_all_ok (⟨op, o1, o2, res, now⟩ : Calculation)
      cal.observers hall
    constructor
    · simp [Calculator.calculate, hn]
    · rw [hn]
  · intro pre f post e hsplit hpre hfe
    have hn := notify_prefix_raise (⟨op, o1, o2, res, now⟩ : Calculation)
      f e hfe pre post hpre
    rw [← hsplit] at hn
    constructor
    · rw [hn]
    · simp [Calculator.calculate, hn]
  · intro hst c
    unfold AutoSaveObserver.update
    rcases (hst.save_to_csv).2 with _ | _ <;> rfl

/-- C9, witness: the amended statement at a calculator whose single observer
returns normally — all observers run and the result comes back. -/
theorem C9_witness :
    ((⟨CalculationHistory.init 100, [obs2]⟩ : Calculator).calculate
      "add" 1 2 (.ok 3) 0).2 = .ok 3 :=
  ((C9_amended (⟨CalculationHistory.init 100, [obs2]⟩ : Calculator)
    "add" 1 2 3 0).1 (by
      intro f hf
      rw [List.mem_singleton] at hf
      subst hf
      rfl)).1

/-- C10: saving history is read-only on core state — whether it raises the
empty-history error or succeeds, the store (entries, undo stack, redo stack,
capacity) is returned exactly unchanged. -/
theorem C10_theorem (h : CalculationHistory) : (h.save_to_csv).1 = h := by
  unfold CalculationHistory.save_to_csv
  split <;> rfl

end CalcMidterm
